import Mathlib

/-!
Verification of container_state_exporter.

Strings from the Go source are modelled as `List Char`; Go `float64`
ordinal constants are modelled as `ℚ` (only their order and exact decimal
values matter to the properties below).  The two near-duplicate Go files
are both embedded: the variant in `part_000` (state-ordinal-computing,
startup-initialized client) and the variant in `main.go` (always emits 0).
-/

/-- Models Go `strings.HasPrefix s p` on char lists. -/
def startsWithL : List Char → List Char → Bool
  | _, [] => true
  | [], _ :: _ => false
  | c :: cs, d :: ds => c == d && startsWithL cs ds

/-- Models Go `strings.Contains s sub`: `sub` occurs contiguously in `s`. -/
def containsSub : List Char → List Char → Bool
  | [], sub => sub.isEmpty
  | c :: cs, sub => startsWithL (c :: cs) sub || containsSub cs sub

/-- Models Go `strings.TrimPrefix s p`: drop `p` from the front of `s` when
present, otherwise return `s` unchanged. -/
def goTrim (s p : List Char) : List Char :=
  if startsWithL s p then s.drop p.length else s

/-- Models Go `strings.Split s (String sep)` for a one-character separator:
the subslices of `s` between every instance of `sep`.  Always nonempty. -/
def goSplit (sep : Char) : List Char → List (List Char)
  | [] => [[]]
  | c :: cs =>
    if c = sep then [] :: goSplit sep cs
    else
      match goSplit sep cs with
      | [] => [[c]]
      | r :: rs => (c :: r) :: rs

/-- State-name constant `CREATED = "created"` from the source. -/
def CREATED : List Char := "created".data

/-- State-name constant `RESTARTING = "restarting"` from the source. -/
def RESTARTING : List Char := "restarting".data

/-- State-name constant `EXITED = "exited"` from the source. -/
def EXITED : List Char := "exited".data

/-- State-name constant `RUNNING = "running"` from the source. -/
def RUNNING : List Char := "running".data

/-- State-name constant `UNKNOW = "noknow"` from the source (sic). -/
def UNKNOW : List Char := "noknow".data

/-- Ordinal constant `UNKNOWStateValue = 0.1` from the source. -/
def UNKNOWStateValue : ℚ := 0.1

/-- Ordinal constant `CreatedStateValue = 0.2` from the source. -/
def CreatedStateValue : ℚ := 0.2

/-- Ordinal constant `RestartingStateValue = 0.4` from the source. -/
def RestartingStateValue : ℚ := 0.4

/-- Ordinal constant `ExitedStateValue = 0.6` from the source. -/
def ExitedStateValue : ℚ := 0.6

/-- Ordinal constant `RunningStateValue = 1` from the source. -/
def RunningStateValue : ℚ := 1

/-- Models Go map indexing `m[k]`: the value stored at `k`, if any. -/
def mapLookup : List (List Char × ℚ) → List Char → Option ℚ
  | [], _ => none
  | (k, v) :: es, s => if s = k then some v else mapLookup es s

/-- The Go map literal `ContainerStatusMap`, as an association list. -/
def ContainerStatusMap : List (List Char × ℚ) :=
  [(CREATED, CreatedStateValue),
   (RESTARTING, RestartingStateValue),
   (EXITED, ExitedStateValue),
   (RUNNING, RunningStateValue),
   (UNKNOW, UNKNOWStateValue)]

/-- Models Go `GetContainerStateValue` (part_000): map hit returns the stored
ordinal, otherwise fall back to `ContainerStatusMap[UNKNOW]` (Go map indexing
with a missing key yields the zero value, hence `getD 0`). -/
def GetContainerStateValue (state : List Char) : ℚ :=
  match mapLookup ContainerStatusMap state with
  | some v => v
  | none => (mapLookup ContainerStatusMap UNKNOW).getD 0

/-- Models Go `GetContainerVersion`: `split := strings.Split(image, ":")`;
if `len(split) > 1 && strings.Contains(image, "aiforward")` the result is
`split[1]`, otherwise the zero value `""`. -/
def GetContainerVersion (image : List Char) : List Char :=
  let split := goSplit ':' image
  if 1 < split.length ∧ containsSub image ("aiforward".data) = true then
    split.getD 1 []
  else []

/-- Models Docker `types.Container` restricted to the fields the source
reads: `Names`, `ID`, `Image`, `Status`, `State`. -/
structure Container where
  Names : List (List Char)
  ID : List Char
  Image : List Char
  Status : List Char
  State : List Char

/-- One emitted metric: the gauge value and the six label values, in the
order they are passed to `MustNewConstMetric`. -/
structure MetricSample where
  value : ℚ
  name : List Char
  id : List Char
  image : List Char
  status : List Char
  state : List Char
  version : List Char

/-- The label values of a sample, in declaration order. -/
def MetricSample.labels (m : MetricSample) : List (List Char) :=
  [m.name, m.id, m.image, m.status, m.state, m.version]

/-- The label names passed to `prometheus.NewDesc` in `NewExporter`. -/
def metricLabelNames : List (List Char) :=
  ["name", "id", "image", "status", "state", "version"].map String.data

/-- One iteration of the `Collect` loop in part_000: `info.Names[0]` panics
when `Names` is empty (modelled as `none`); otherwise the sample carries
`GetContainerStateValue info.State` and the six label values. -/
def collectOne (info : Container) : Option MetricSample :=
  match info.Names with
  | [] => none
  | n :: _ =>
    some { value := GetContainerStateValue info.State
           name := goTrim n ("/".data)
           id := info.ID
           image := info.Image
           status := info.Status
           state := info.State
           version := GetContainerVersion info.Image }

/-- Models `Exporter.Collect` of part_000 over a container list: one sample
per container in list order; a panicking iteration aborts the pass. -/
def Collect : List Container → Option (List MetricSample)
  | [] => some []
  | info :: rest =>
    match collectOne info, Collect rest with
    | some m, some ms => some (m :: ms)
    | _, _ => none

/-- One iteration of the `Collect` loop in `main.go`: identical labels, but
the gauge value passed to `MustNewConstMetric` is the literal `0`. -/
def collectOneMain (info : Container) : Option MetricSample :=
  match info.Names with
  | [] => none
  | n :: _ =>
    some { value := 0
           name := goTrim n ("/".data)
           id := info.ID
           image := info.Image
           status := info.Status
           state := info.State
           version := GetContainerVersion info.Image }

/-- Models `Exporter.Collect` of `main.go` over a container list. -/
def CollectMain : List Container → Option (List MetricSample)
  | [] => some []
  | info :: rest =>
    match collectOneMain info, CollectMain rest with
    | some m, some ms => some (m :: ms)
    | _, _ => none

/-- Models `GetContainerList` (part_000): the runtime list call either
fails (logged, zero-value `nil` slice returned) or yields its list. -/
def GetContainerList (resp : Except String (List Container)) : List Container :=
  match resp with
  | Except.error _ => []
  | Except.ok l => l

/-- The total per-record sample used to state order/shape properties of a
pass in which no record panics. -/
def sampleOf (info : Container) : MetricSample :=
  { value := GetContainerStateValue info.State
    name := goTrim info.Names.headI ("/".data)
    id := info.ID
    image := info.Image
    status := info.Status
    state := info.State
    version := GetContainerVersion info.Image }

/-- Splits a char list at its LAST occurrence of `sep`, when there is one:
the pieces before and after that occurrence. -/
def lastSplit (sep : Char) : List Char → Option (List Char × List Char)
  | [] => none
  | c :: cs =>
    match lastSplit sep cs with
    | some (r, t) => some (c :: r, t)
    | none => if c = sep then some ([], cs) else none

/-- The version extractor exactly as the specification words it (split the
reference on the last colon into repository and tag; empty result unless
the repository component holds the organizational marker), stated here only
to compare the specified algorithm with the code. -/
def GetContainerVersionSpec (image : List Char) : List Char :=
  match lastSplit ':' image with
  | none => []
  | some (repo, tag) =>
    if containsSub repo ("aiforward".data) = true then tag else []

/-- A concrete container record used to instantiate witnesses. -/
def demoContainer : Container :=
  { Names := ["/web-1".data]
    ID := "abc123".data
    Image := "org/aiforward-app:9.9".data
    Status := "Up 3 days".data
    State := "running".data }

/-- The total per-record sample of the `main.go` variant (constant value
`0`, same labels). -/
def sampleOfMain (info : Container) : MetricSample :=
  { value := 0
    name := goTrim info.Names.headI ("/".data)
    id := info.ID
    image := info.Image
    status := info.Status
    state := info.State
    version := GetContainerVersion info.Image }

/-- `collectOne` succeeds exactly on a nonempty name list, and then agrees
with `sampleOf`. -/
theorem collectOne_eq_sampleOf (info : Container) (h : info.Names ≠ []) :
    collectOne info = some (sampleOf info) := by
  cases hn : info.Names with
  | nil => exact absurd hn h
  | cons n rest => simp [collectOne, sampleOf, hn]

/-- On an all-named list, `Collect` is the total map `sampleOf`. -/
theorem Collect_eq_map (l : List Container) (h : ∀ c ∈ l, c.Names ≠ []) :
    Collect l = some (l.map sampleOf) := by
  induction l with
  | nil => rfl
  | cons c cs ih =>
    have hc : c.Names ≠ [] := h c (List.mem_cons_self c cs)
    have hcs := ih (fun d hd => h d (List.mem_cons_of_mem c hd))
    simp [Collect, collectOne_eq_sampleOf c hc, hcs]

/-- The state mapper takes only the five ordinal values stored in
`ContainerStatusMap` (the fallback being the `UNKNOW` entry). -/
theorem stateValue_cases (s : List Char) :
    GetContainerStateValue s = 0.2 ∨ GetContainerStateValue s = 0.4 ∨
    GetContainerStateValue s = 0.6 ∨ GetContainerStateValue s = 1 ∨
    GetContainerStateValue s = 0.1 := by
  by_cases h1 : s = CREATED
  · subst h1; exact Or.inl rfl
  by_cases h2 : s = RESTARTING
  · subst h2; exact Or.inr (Or.inl rfl)
  by_cases h3 : s = EXITED
  · subst h3; exact Or.inr (Or.inr (Or.inl rfl))
  by_cases h4 : s = RUNNING
  · subst h4; exact Or.inr (Or.inr (Or.inr (Or.inl rfl)))
  by_cases h5 : s = UNKNOW
  · subst h5; exact Or.inr (Or.inr (Or.inr (Or.inr rfl)))
  have hnone : mapLookup ContainerStatusMap s = none := by
    simp [mapLookup, ContainerStatusMap, h1, h2, h3, h4, h5]
  refine Or.inr (Or.inr (Or.inr (Or.inr ?_)))
  unfold GetContainerStateValue
  rw [hnone]
  rfl

/-- Unrecognized state strings take the fallback value `0.1`. -/
theorem stateValue_fallback (s : List Char)
    (h1 : s ≠ CREATED) (h2 : s ≠ RESTARTING) (h3 : s ≠ EXITED) (h4 : s ≠ RUNNING) :
    GetContainerStateValue s = 0.1 := by
  by_cases h5 : s = UNKNOW
  · subst h5; rfl
  have hnone : mapLookup ContainerStatusMap s = none := by
    simp [mapLookup, ContainerStatusMap, h1, h2, h3, h4, h5]
  unfold GetContainerStateValue
  rw [hnone]
  rfl

/-- C1: the recognized lifecycle states map to exactly the documented
ordinals (`created`→0.2, `restarting`→0.4, `exited`→0.6, `running`→1.0),
and every other string — the empty string and the literal state name
`"unknown"` included — takes the fallback ordinal 0.1; the fallback is a
total computation, never a failure. -/
theorem stateMapper_ordinals (s : List Char)
    (h1 : s ≠ CREATED) (h2 : s ≠ RESTARTING) (h3 : s ≠ EXITED) (h4 : s ≠ RUNNING) :
    GetContainerStateValue CREATED = 0.2 ∧
    GetContainerStateValue RESTARTING = 0.4 ∧
    GetContainerStateValue EXITED = 0.6 ∧
    GetContainerStateValue RUNNING = 1 ∧
    GetContainerStateValue s = 0.1 :=
  ⟨rfl, rfl, rfl, rfl, stateValue_fallback s h1 h2 h3 h4⟩

/-- C1 witness: the explicit state name `"unknown"` is unrecognized and
falls back to 0.1, alongside the four recognized ordinals. -/
theorem stateMapper_ordinals_witness :
    GetContainerStateValue CREATED = 0.2 ∧
    GetContainerStateValue RESTARTING = 0.4 ∧
    GetContainerStateValue EXITED = 0.6 ∧
    GetContainerStateValue RUNNING = 1 ∧
    GetContainerStateValue ("unknown".data) = 0.1 :=
  stateMapper_ordinals ("unknown".data) (by decide) (by decide) (by decide) (by decide)

/-- C6: every ordinal the state mapper can return lies in the interval
(0, 1], and the unknown/fallback ordinal `UNKNOWStateValue` is strictly
below the ordinal of each of the four recognized states. -/
theorem stateValue_range_and_order :
    (∀ s : List Char, 0 < GetContainerStateValue s ∧ GetContainerStateValue s ≤ 1) ∧
    UNKNOWStateValue < GetContainerStateValue CREATED ∧
    UNKNOWStateValue < GetContainerStateValue RESTARTING ∧
    UNKNOWStateValue < GetContainerStateValue EXITED ∧
    UNKNOWStateValue < GetContainerStateValue RUNNING := by
  have hc : GetContainerStateValue CREATED = 0.2 := rfl
  have hr : GetContainerStateValue RESTARTING = 0.4 := rfl
  have he : GetContainerStateValue EXITED = 0.6 := rfl
  have hg : GetContainerStateValue RUNNING = 1 := rfl
  refine ⟨fun s => ?_, ?_, ?_, ?_, ?_⟩
  · rcases stateValue_cases s with h | h | h | h | h <;> rw [h] <;>
      exact ⟨by norm_num, by norm_num⟩
  · rw [hc]; norm_num [UNKNOWStateValue]
  · rw [hr]; norm_num [UNKNOWStateValue]
  · rw [he]; norm_num [UNKNOWStateValue]
  · rw [hg]; norm_num [UNKNOWStateValue]

/-- C10: the three documented test vectors of the version extractor. -/
theorem getContainerVersion_vectors :
    GetContainerVersion ("org/aiforward-service:v2.3".data) = "v2.3".data ∧
    GetContainerVersion ("org/other-service:v2.3".data) = [] ∧
    GetContainerVersion ("org/aiforward-service".data) = [] := by
  refine ⟨by decide, by decide, by decide⟩

/-- C2 counterexample: the code and the specified algorithm disagree.  On
`"aiforward:1:2"` the code returns the piece after the FIRST colon while a
last-colon split returns `"2"`; on `"db:aiforward"` the code accepts the
marker anywhere in the reference while the specified algorithm requires it
in the repository component. -/
theorem getContainerVersion_last_colon_cex :
    GetContainerVersion ("aiforward:1:2".data) = "1".data ∧
    GetContainerVersionSpec ("aiforward:1:2".data) = "2".data ∧
    GetContainerVersion ("db:aiforward".data) = "aiforward".data ∧
    GetContainerVersionSpec ("db:aiforward".data) = [] := by
  refine ⟨by decide, by decide, by decide, by decide⟩

/-- `goSplit` never returns the empty list. -/
theorem goSplit_ne_nil (sep : Char) (s : List Char) : goSplit sep s ≠ [] := by
  induction s with
  | nil => simp [goSplit]
  | cons c cs ih =>
    unfold goSplit
    by_cases h : c = sep
    · simp [h]
    · simp only [if_neg h]
      cases hs : goSplit sep cs with
      | nil => simp
      | cons r rs => simp

/-- The number of pieces `goSplit` produces is one more than the number of
separator occurrences. -/
theorem goSplit_length (sep : Char) (s : List Char) :
    (goSplit sep s).length = s.count sep + 1 := by
  induction s with
  | nil => simp [goSplit]
  | cons c cs ih =>
    unfold goSplit
    by_cases h : c = sep
    · simp [h, List.count_cons, ih]
    · simp only [if_neg h]
      cases hs : goSplit sep cs with
      | nil => exact absurd hs (goSplit_ne_nil sep cs)
      | cons r rs =>
        have : rs.length + 1 = cs.count sep + 1 := by rw [← ih, hs]; rfl
        simp [List.count_cons, h, this]

/-- Splitting a list whose head part is separator-free peels that part off
as the first piece. -/
theorem goSplit_append (a b : List Char) (ha : a.count ':' = 0) :
    goSplit ':' (a ++ ':' :: b) = a :: goSplit ':' b := by
  induction a with
  | nil => simp [goSplit]
  | cons c cs ih =>
    have hc : c ≠ ':' := by
      intro h; subst h; simp [List.count_cons] at ha
    have hcs : cs.count ':' = 0 := by
      simp [List.count_cons, hc] at ha; exact ha
    have := ih hcs
    simp only [List.cons_append]
    conv_lhs => unfold goSplit
    rw [if_neg hc, this]

/-- C2 (amended): the code splits the reference on EVERY colon and returns
the piece between the first colon and the next one (not the piece after the
last colon), and the organizational marker is looked for in the whole
reference (not only in the repository component); a reference with no colon
still yields the empty string. -/
theorem getContainerVersion_first_colon :
    (∀ img : List Char, img.count ':' = 0 → GetContainerVersion img = []) ∧
    (∀ a b : List Char, a.count ':' = 0 →
      GetContainerVersion (a ++ ':' :: b) =
        if containsSub (a ++ ':' :: b) ("aiforward".data) = true
        then (goSplit ':' b).headI else []) := by
  constructor
  · intro img h
    unfold GetContainerVersion
    rw [if_neg]
    intro hcontra
    have h1 := hcontra.1
    rw [goSplit_length, h] at h1
    omega
  · intro a b ha
    unfold GetContainerVersion
    rw [goSplit_append a b ha]
    by_cases hc : containsSub (a ++ ':' :: b) ("aiforward".data) = true
    · rw [if_pos, if_pos hc]
      · cases hg : goSplit ':' b with
        | nil => exact absurd hg (goSplit_ne_nil ':' b)
        | cons r rs => simp [hg]
      · refine ⟨?_, hc⟩
        simp [goSplit_length]
    · rw [if_neg, if_neg hc]
      intro hcontra
      exact hc hcontra.2

/-- C2 witness: concrete no-colon and with-colon references evaluated
through the amended characterization. -/
theorem getContainerVersion_first_colon_witness :
    GetContainerVersion ("nocolon".data) = [] ∧
    GetContainerVersion ("org/aiforward".data ++ ':' :: "v1:x".data) =
      (if containsSub ("org/aiforward".data ++ ':' :: "v1:x".data) ("aiforward".data) = true
       then (goSplit ':' "v1:x".data).headI else []) :=
  ⟨getContainerVersion_first_colon.1 ("nocolon".data) (by decide),
   getContainerVersion_first_colon.2 ("org/aiforward".data) ("v1:x".data) (by decide)⟩

/-- C9: the name label of the emitted sample is the first declared name
with the prefix string `"/"` trimmed once; a name without the prefix is
unchanged, and only one leading slash is removed. -/
theorem collect_name_strip :
    (∀ (c : Container) (n : List Char) (rest : List (List Char)),
      c.Names = n :: rest →
      ∃ m, Collect [c] = some [m] ∧ m.name = goTrim n ("/".data)) ∧
    goTrim ("/my-container".data) ("/".data) = "my-container".data ∧
    goTrim ("my-container".data) ("/".data) = "my-container".data ∧
    goTrim ("//nested".data) ("/".data) = "/nested".data := by
  refine ⟨?_, by decide, by decide, by decide⟩
  intro c n rest h
  have hne : c.Names ≠ [] := by rw [h]; simp
  refine ⟨sampleOf c, ?_, ?_⟩
  · simp [Collect, collectOne_eq_sampleOf c hne]
  · simp [sampleOf, h]

/-- C9 witness: a record declared as `"/my-container"` yields the label
`goTrim "/my-container" "/"`. -/
theorem collect_name_strip_witness :
    ∃ m, Collect [Container.mk ["/my-container".data] ("cid9".data)
        ("img9".data) ("Up9".data) ("running".data)] = some [m] ∧
      m.name = goTrim ("/my-container".data) ("/".data) :=
  collect_name_strip.1
    (Container.mk ["/my-container".data] ("cid9".data) ("img9".data)
      ("Up9".data) ("running".data))
    ("/my-container".data) [] rfl

/-- C3 counterexample: a record whose declared-name list is empty does not
degrade to a default label — the `Names[0]` access makes the whole pass
abort. -/
theorem collect_empty_names_aborts :
    Collect [Container.mk [] ("cid3".data) ("img3".data) ("Up3".data)
      ("running".data)] = none := rfl

/-- C3 (amended): a pass over records that all carry at least one declared
name completes without aborting, every emitted sample has the fixed
six-label arity, and a record whose image lacks the organizational marker
degrades to the empty version label; but a record with an EMPTY
declared-name list aborts the pass instead of degrading to a default. -/
theorem collect_permissive_amended :
    (∀ l : List Container, (∀ c ∈ l, c.Names ≠ []) →
      ∃ s, Collect l = some s ∧ s.length = l.length ∧
        ∀ m ∈ s, m.labels.length = metricLabelNames.length) ∧
    (∀ (c : Container) (m : MetricSample), collectOne c = some m →
      containsSub c.Image ("aiforward".data) = false → m.version = []) := by
  constructor
  · intro l h
    refine ⟨l.map sampleOf, Collect_eq_map l h, by simp, ?_⟩
    intro m hm
    rcases List.mem_map.mp hm with ⟨c, _, rfl⟩
    rfl
  · intro c m h hmarker
    cases hn : c.Names with
    | nil => rw [collectOne, hn] at h; cases h
    | cons n rest =>
      have hne : c.Names ≠ [] := by rw [hn]; simp
      rw [collectOne_eq_sampleOf c hne] at h
      obtain rfl : m = sampleOf c := (Option.some.inj h).symm
      show GetContainerVersion c.Image = []
      unfold GetContainerVersion
      rw [if_neg]
      intro hcontra
      rw [hmarker] at hcontra
      exact Bool.false_ne_true hcontra.2

/-- C3 witness: a one-record all-named pass completes with one fixed-arity
sample. -/
theorem collect_permissive_amended_witness :
    ∃ s, Collect [demoContainer] = some s ∧
      s.length = [demoContainer].length ∧
      ∀ m ∈ s, m.labels.length = metricLabelNames.length :=
  collect_permissive_amended.1 [demoContainer]
    (by intro c hc; rw [List.mem_singleton] at hc; subst hc; decide)

/-- C4: a failing runtime list call yields the empty container list, and
the enclosing collection pass completes without error, with zero samples. -/
theorem runtime_failure_yields_empty (e : String) :
    GetContainerList (Except.error e) = [] ∧
    Collect (GetContainerList (Except.error e)) = some [] :=
  ⟨rfl, rfl⟩

/-- C5 counterexample: not every gateway sequence yields one sample per
record — a one-record sequence whose record has no declared names makes the
pass abort with no sample list at all. -/
theorem collect_abort_cex :
    Collect [Container.mk [] ("cid5".data) ("img5".data) ("Up5".data)
      ("exited".data)] = none := rfl

/-- C5 (amended): over any gateway sequence whose records all carry at
least one declared name, the pass emits exactly one sample per record, in
exactly the gateway order (it is the elementwise map `sampleOf`); the empty
sequence yields zero samples and no error. -/
theorem collect_one_sample_per_record :
    (∀ l : List Container, (∀ c ∈ l, c.Names ≠ []) →
      Collect l = some (l.map sampleOf)) ∧
    Collect [] = some [] :=
  ⟨Collect_eq_map, rfl⟩

/-- C5 witness: a concrete one-record pass maps to exactly one sample. -/
theorem collect_one_sample_per_record_witness :
    Collect [demoContainer] = some ([demoContainer].map sampleOf) :=
  collect_one_sample_per_record.1 [demoContainer]
    (by intro c hc; rw [List.mem_singleton] at hc; subst hc; decide)

/-- C7: with the same gateway response feeding both passes, two collection
passes produce identical sample lists — same samples, same label rows, same
ordinal values, same order; the pass has no cross-pass state to diverge
on. -/
theorem collect_idempotent (r1 r2 : List Container) (hr : r1 = r2)
    (s1 s2 : List MetricSample)
    (h1 : Collect r1 = some s1) (h2 : Collect r2 = some s2) :
    s1 = s2 ∧
    s1.map MetricSample.labels = s2.map MetricSample.labels ∧
    s1.map MetricSample.value = s2.map MetricSample.value := by
  subst hr
  rw [h1] at h2
  obtain rfl : s1 = s2 := Option.some.inj h2
  exact ⟨rfl, rfl, rfl⟩

/-- C7 witness: two passes over the same concrete one-record response
coincide. -/
theorem collect_idempotent_witness :
    [demoContainer].map sampleOf = [demoContainer].map sampleOf ∧
    ([demoContainer].map sampleOf).map MetricSample.labels =
      ([demoContainer].map sampleOf).map MetricSample.labels ∧
    ([demoContainer].map sampleOf).map MetricSample.value =
      ([demoContainer].map sampleOf).map MetricSample.value :=
  collect_idempotent [demoContainer] [demoContainer] rfl
    ([demoContainer].map sampleOf) ([demoContainer].map sampleOf) rfl rfl

/-- `collectOneMain` on a named record agrees with `sampleOfMain`. -/
theorem collectOneMain_eq_sampleOfMain (info : Container) (h : info.Names ≠ []) :
    collectOneMain info = some (sampleOfMain info) := by
  cases hn : info.Names with
  | nil => exact absurd hn h
  | cons n rest => simp [collectOneMain, sampleOfMain, hn]

/-- A successful part_000 pass is exactly the `sampleOf` map of its input. -/
theorem Collect_some_shape {l : List Container} {s : List MetricSample}
    (h : Collect l = some s) : s = l.map sampleOf := by
  induction l generalizing s with
  | nil =>
    rw [Collect] at h
    exact (Option.some.inj h).symm
  | cons c cs ih =>
    rw [Collect] at h
    cases hc : collectOne c with
    | none => rw [hc] at h; cases h
    | some m =>
      cases hcs : Collect cs with
      | none => rw [hc, hcs] at h; cases h
      | some ms =>
        rw [hc, hcs] at h
        obtain rfl : m :: ms = s := Option.some.inj h
        have hm : m = sampleOf c := by
          cases hn : c.Names with
          | nil => rw [collectOne, hn] at hc; cases hc
          | cons n rest =>
            have hne : c.Names ≠ [] := by rw [hn]; simp
            rw [collectOne_eq_sampleOf c hne] at hc
            exact (Option.some.inj hc).symm
        rw [List.map_cons, hm, ih hcs]

/-- A successful `main.go` pass is exactly the `sampleOfMain` map of its
input. -/
theorem CollectMain_some_shape {l : List Container} {s : List MetricSample}
    (h : CollectMain l = some s) : s = l.map sampleOfMain := by
  induction l generalizing s with
  | nil =>
    rw [CollectMain] at h
    exact (Option.some.inj h).symm
  | cons c cs ih =>
    rw [CollectMain] at h
    cases hc : collectOneMain c with
    | none => rw [hc] at h; cases h
    | some m =>
      cases hcs : CollectMain cs with
      | none => rw [hc, hcs] at h; cases h
      | some ms =>
        rw [hc, hcs] at h
        obtain rfl : m :: ms = s := Option.some.inj h
        have hm : m = sampleOfMain c := by
          cases hn : c.Names with
          | nil => rw [collectOneMain, hn] at hc; cases hc
          | cons n rest =>
            have hne : c.Names ≠ [] := by rw [hn]; simp
            rw [collectOneMain_eq_sampleOfMain c hne] at hc
            exact (Option.some.inj hc).symm
        rw [List.map_cons, hm, ih hcs]

/-- No state string maps to the ordinal `0`: every reachable ordinal is at
least `0.1`. -/
theorem stateValue_ne_zero (st : List Char) : GetContainerStateValue st ≠ 0 := by
  rcases stateValue_cases st with h | h | h | h | h <;> rw [h] <;> norm_num

/-- C8: whenever both `Collect` variants complete on the same container
list they emit the same label rows in the same order, but the `main.go`
variant emits the constant value `0` on every sample while the part_000
variant never emits `0` — no lifecycle-state string makes the two values
agree. -/
theorem variants_not_equivalent (l : List Container)
    (s sMain : List MetricSample)
    (h : Collect l = some s) (hm : CollectMain l = some sMain) :
    s.map MetricSample.labels = sMain.map MetricSample.labels ∧
    (∀ m ∈ sMain, m.value = 0) ∧
    (∀ m ∈ s, m.value ≠ 0) ∧
    (∀ st : List Char, GetContainerStateValue st ≠ 0) := by
  obtain rfl : s = l.map sampleOf := Collect_some_shape h
  obtain rfl : sMain = l.map sampleOfMain := CollectMain_some_shape hm
  refine ⟨?_, ?_, ?_, stateValue_ne_zero⟩
  · rw [List.map_map, List.map_map]
    rfl
  · intro m hmm
    rcases List.mem_map.mp hmm with ⟨c, _, rfl⟩
    rfl
  · intro m hmm
    rcases List.mem_map.mp hmm with ⟨c, _, rfl⟩
    exact stateValue_ne_zero c.State

/-- C8 witness: the two variants evaluated on the same concrete one-record
list. -/
theorem variants_not_equivalent_witness :
    ([demoContainer].map sampleOf).map MetricSample.labels =
      ([demoContainer].map sampleOfMain).map MetricSample.labels ∧
    (∀ m ∈ [demoContainer].map sampleOfMain, m.value = 0) ∧
    (∀ m ∈ [demoContainer].map sampleOf, m.value ≠ 0) ∧
    (∀ st : List Char, GetContainerStateValue st ≠ 0) :=
  variants_not_equivalent [demoContainer]
    ([demoContainer].map sampleOf) ([demoContainer].map sampleOfMain) rfl rfl

/-- C4 witness: a concrete runtime error yields the empty list and an
empty, error-free pass. -/
theorem runtime_failure_yields_empty_witness :
    GetContainerList (Except.error "connect docker server err") = [] ∧
    Collect (GetContainerList (Except.error "connect docker server err")) = some [] :=
  runtime_failure_yields_empty "connect docker server err"
